import Mathlib

/-!
Shallow embedding of `piot/platform-storage` (`src/lib.rs`), a pure
path-computation library resolving per-purpose base directories
(settings, saves, logs, temp) from an application identity
(company, app, bundle_id), the host OS family and environment variables.

Paths are modelled as `String`s over the host separator, with
`pushStr` modelling `std::path::PathBuf::push` (an argument with a root
replaces the path; otherwise a separator is inserted when needed).
`components` models `std::path::Path::components` up to the following
simplifications, none of which is exercised by any theorem below:
Rust additionally drops non-leading `.` components, and on Windows it
recognises drive/verbatim prefixes (all Windows-family reasoning here
stays on separator-free segments where those rules never fire).
Environment variables are `Option String` (a set-but-empty variable is
`some ""`, exactly as `std::env::var_os` reports it).
-/

/-- OS family selected by `cfg` conditional compilation in the source. -/
inductive OS where
  | windows
  | macos
  | otherUnix
deriving DecidableEq, Repr

/-- Environment-variable state consulted by the library (plus the value
backing `std::env::temp_dir`). `none` means unset. -/
structure Env where
  home_var : Option String := none
  userprofile : Option String := none
  localappdata : Option String := none
  xdg_config_home : Option String := none
  xdg_data_home : Option String := none
  xdg_state_home : Option String := none
  tmpdir : Option String := none
  winTemp : Option String := none
deriving Repr

/-- Path-separator test: Windows accepts both `/` and `\`. -/
def isSep (os : OS) (c : Char) : Bool :=
  if os = OS.windows then c == '/' || c == '\\' else c == '/'

/-- The separator `PathBuf::push` inserts on each family. -/
def sepChar (os : OS) : Char :=
  if os = OS.windows then '\\' else '/'

/-- Split a character list at separators (standard split-on-predicate). -/
def splitChars (os : OS) : List Char → List (List Char)
  | [] => [[]]
  | c :: cs =>
    if isSep os c then
      [] :: splitChars os cs
    else
      match splitChars os cs with
      | [] => [[c]]
      | l :: ls => (c :: l) :: ls

/-- Non-empty components of a character list. -/
def componentsL (os : OS) (l : List Char) : List String :=
  ((splitChars os l).filter (fun x => !x.isEmpty)).map (fun x => String.mk x)

/-- Normal components of a path (model of `Path::components`, root and
repeated separators dropped). -/
def components (os : OS) (p : String) : List String :=
  componentsL os p.data

/-- Does the path start with a separator (model of `Path::has_root`)? -/
def hasRoot (os : OS) (p : String) : Bool :=
  match p.data with
  | [] => false
  | c :: _ => isSep os c

/-- Does the path end with a separator? -/
def endsWithSep (os : OS) (p : String) : Bool :=
  match p.data.getLast? with
  | some c => isSep os c
  | none => false

/-- Model of `std::path::PathBuf::push`: a rooted argument replaces the
path, otherwise the argument is appended, inserting a separator when the
path is non-empty and does not already end in one. -/
def pushStr (os : OS) (p s : String) : String :=
  if hasRoot os s then s
  else if p = "" then s
  else if endsWithSep os p then p ++ s
  else p ++ String.singleton (sepChar os) ++ s

/-- Last normal component of a path. -/
def lastComponent (os : OS) (p : String) : Option String :=
  (components os p).getLast?

/-- Model of `Path` equality (`PartialEq` compares the component
iterators, so repeated or trailing separators are irrelevant). -/
abbrev pathEq (os : OS) (p q : String) : Prop :=
  hasRoot os p = hasRoot os q ∧ components os p = components os q

/-- An ordinary path segment: non-empty, not `.` or `..`, and free of
separator characters. -/
abbrev CleanSeg (os : OS) (s : String) : Prop :=
  s ≠ "" ∧ s ≠ "." ∧ s ≠ ".." ∧ ∀ c ∈ s.data, isSep os c = false

/-- Model of `Path::parent`: `none` for the root or the empty path, else
the path with its last component removed. -/
def parentStr (os : OS) (p : String) : Option String :=
  match components os p with
  | [] => none
  | cs => some ((if hasRoot os p then String.singleton (sepChar os) else "")
      ++ String.intercalate (String.singleton (sepChar os)) cs.dropLast)

/-- Model of `str::to_lowercase` (faithful on ASCII, which is all any
theorem below evaluates). -/
def lowerAscii (s : String) : String :=
  String.mk (s.data.map Char.toLower)

/- ================= the library itself ================= -/

/-- `BaseDirs`: lowercased company/app (Windows and Linux) and
lowercased reverse-DNS bundle id (macOS). -/
structure BaseDirs where
  company : String
  app : String
  bundle_id : String
deriving DecidableEq, Repr

/-- `BaseDirs::new`: lowercases all three inputs. -/
def BaseDirs.new (company app bundle_id : String) : BaseDirs :=
  { company := lowerAscii company
    app := lowerAscii app
    bundle_id := lowerAscii bundle_id }

/-- `home()`: on Windows `USERPROFILE` or-else `HOME`, elsewhere `HOME`,
with `PathBuf::from("/")` as the final fallback. -/
def home (os : OS) (e : Env) : String :=
  (if os = OS.windows then
    match e.userprofile with
    | some u => some u
    | none => e.home_var
  else e.home_var).getD "/"

/-- `win_localappdata_base()`: `LOCALAPPDATA`, else the hard-coded
default profile path. -/
def win_localappdata_base (e : Env) : String :=
  (e.localappdata).getD "C:\\Users\\Default\\AppData\\Local"

/-- `win_saved_games_base()`: `home().join("Saved Games")`. -/
def win_saved_games_base (e : Env) : String :=
  pushStr OS.windows (home OS.windows e) "Saved Games"

/-- `mac_app_support_base()`: `home()/Library/Application Support`. -/
def mac_app_support_base (e : Env) : String :=
  pushStr OS.macos (pushStr OS.macos (home OS.macos e) "Library") "Application Support"

/-- `mac_logs_base()`: `home()/Library/Logs`. -/
def mac_logs_base (e : Env) : String :=
  pushStr OS.macos (pushStr OS.macos (home OS.macos e) "Library") "Logs"

/-- `xdg_config_home_base()`: `XDG_CONFIG_HOME`, else `home()/.config`. -/
def xdg_config_home_base (e : Env) : String :=
  match e.xdg_config_home with
  | some v => v
  | none => pushStr OS.otherUnix (home OS.otherUnix e) ".config"

/-- `xdg_data_home_base()`: `XDG_DATA_HOME`, else `home()/.local/share`. -/
def xdg_data_home_base (e : Env) : String :=
  match e.xdg_data_home with
  | some v => v
  | none => pushStr OS.otherUnix (pushStr OS.otherUnix (home OS.otherUnix e) ".local") "share"

/-- `xdg_state_home_base()`: `XDG_STATE_HOME`, else `home()/.local/state`. -/
def xdg_state_home_base (e : Env) : String :=
  match e.xdg_state_home with
  | some v => v
  | none => pushStr OS.otherUnix (pushStr OS.otherUnix (home OS.otherUnix e) ".local") "state"

/-- `app_path`: build `base/company/app[/suffix]`. -/
def app_path (os : OS) (base company app : String) (suffix : Option String) : String :=
  let p := pushStr os (pushStr os base company) app
  match suffix with
  | some s => pushStr os p s
  | none => p

/-- `bundle_path`: build `base/<bundle_id>[/suffix]`. -/
def bundle_path (os : OS) (base bundle_id : String) (suffix : Option String) : String :=
  let p := pushStr os base bundle_id
  match suffix with
  | some s => pushStr os p s
  | none => p

/-- `std::env::temp_dir`: `TMPDIR` else `/tmp` on Unix-like systems;
the Windows `GetTempPath` result is modelled as an environment-supplied
value with the classic default. -/
def env_temp_dir (os : OS) (e : Env) : String :=
  match os with
  | OS.windows => e.winTemp.getD "C:\\Windows\\Temp"
  | _ => e.tmpdir.getD "/tmp"

/-- `BaseDirs::settings_dir` (the `cfg` branches become a match on the
OS family). -/
def BaseDirs.settings_dir (bd : BaseDirs) (os : OS) (e : Env) : String :=
  match os with
  | OS.windows => app_path os (win_localappdata_base e) bd.company bd.app (some "settings")
  | OS.macos => bundle_path os (mac_app_support_base e) bd.bundle_id (some "settings")
  | OS.otherUnix => app_path os (xdg_config_home_base e) bd.company bd.app none

/-- `BaseDirs::saves_dir`. -/
def BaseDirs.saves_dir (bd : BaseDirs) (os : OS) (e : Env) : String :=
  match os with
  | OS.windows => app_path os (win_saved_games_base e) bd.company bd.app none
  | OS.macos => bundle_path os (mac_app_support_base e) bd.bundle_id (some "saves")
  | OS.otherUnix => app_path os (xdg_data_home_base e) bd.company bd.app (some "saves")

/-- `BaseDirs::logs_dir`. -/
def BaseDirs.logs_dir (bd : BaseDirs) (os : OS) (e : Env) : String :=
  match os with
  | OS.windows => app_path os (win_localappdata_base e) bd.company bd.app (some "logs")
  | OS.macos => bundle_path os (mac_logs_base e) bd.bundle_id none
  | OS.otherUnix => app_path os (xdg_state_home_base e) bd.company bd.app (some "logs")

/-- `BaseDirs::temp_dir`: delegates to `env::temp_dir()`. -/
def BaseDirs.temp_dir (_bd : BaseDirs) (os : OS) (e : Env) : String :=
  env_temp_dir os e

/-- `BaseDirs::settings_path`: `settings_dir().join(name)`. -/
def BaseDirs.settings_path (bd : BaseDirs) (os : OS) (e : Env) (name : String) : String :=
  pushStr os (bd.settings_dir os e) name

/-- `BaseDirs::saves_path`: `saves_dir().join(name)`. -/
def BaseDirs.saves_path (bd : BaseDirs) (os : OS) (e : Env) (name : String) : String :=
  pushStr os (bd.saves_dir os e) name

/-- `BaseDirs::logs_path`: `logs_dir().join(name)`. -/
def BaseDirs.logs_path (bd : BaseDirs) (os : OS) (e : Env) (name : String) : String :=
  pushStr os (bd.logs_dir os e) name

/- ================= filesystem model for the ensure helpers ========== -/

/-- Idealized filesystem: the set (as a list) of existing directories,
each keyed by rootedness and component list. Creation always succeeds,
matching `create_dir_all`'s create-if-missing semantics in the absence
of I/O faults. -/
abbrev Fs := List (Bool × List String)

/-- The non-empty prefixes of a component list (each ancestor that
`create_dir_all` creates). -/
def prefixesNE (cs : List String) : List (List String) :=
  (List.range cs.length).map (fun n => cs.take (n + 1))

/-- Model of `std::fs::create_dir_all`: the empty path is a no-op
(as in `DirBuilder::create_dir_all`), otherwise every ancestor of the
path is recorded as existing. -/
def create_dir_all (os : OS) (fs : Fs) (p : String) : Fs :=
  if p = "" then fs
  else fs ++ (prefixesNE (components os p)).map (fun cs => (hasRoot os p, cs))

/-- Does a directory exist? The root (no components) always exists. -/
def dirExists (os : OS) (fs : Fs) (p : String) : Bool :=
  decide (components os p = []) || decide ((hasRoot os p, components os p) ∈ fs)

/-- `ensure_dir`: `create_dir_all(&dir)?; Ok(dir)`. -/
def ensure_dir (os : OS) (fs : Fs) (dir : String) : Except String String × Fs :=
  (Except.ok dir, create_dir_all os fs dir)

/-- `BaseDirs::ensure_settings_dir`. -/
def BaseDirs.ensure_settings_dir (bd : BaseDirs) (os : OS) (e : Env) (fs : Fs) :
    Except String String × Fs :=
  ensure_dir os fs (bd.settings_dir os e)

/-- `BaseDirs::ensure_saves_dir`. -/
def BaseDirs.ensure_saves_dir (bd : BaseDirs) (os : OS) (e : Env) (fs : Fs) :
    Except String String × Fs :=
  ensure_dir os fs (bd.saves_dir os e)

/-- `BaseDirs::ensure_logs_dir`. -/
def BaseDirs.ensure_logs_dir (bd : BaseDirs) (os : OS) (e : Env) (fs : Fs) :
    Except String String × Fs :=
  ensure_dir os fs (bd.logs_dir os e)

/-- `BaseDirs::ensure_parent_dir`: `if let Some(p) = path.parent()
{ create_dir_all(p)?; } Ok(())`. -/
def BaseDirs.ensure_parent_dir (_bd : BaseDirs) (os : OS) (fs : Fs) (path : String) :
    Except String Unit × Fs :=
  match parentStr os path with
  | some p => (Except.ok (), create_dir_all os fs p)
  | none => (Except.ok (), fs)

/- ================= fixed example environments ================= -/

/-- Environment with `XDG_CONFIG_HOME=/custom`, everything else unset. -/
def envCustom : Env := { xdg_config_home := some "/custom" }

/-- Environment with every variable unset. -/
def envUnset : Env := {}

theorem splitChars_ne_nil (os : OS) (l : List Char) : splitChars os l ≠ [] := by
  cases l with
  | nil => simp [splitChars]
  | cons c cs =>
    simp only [splitChars]
    split
    · simp
    · split <;> simp

theorem splitChars_append_sep (os : OS) {b : Char} (hb : isSep os b = true)
    (xs ys : List Char) :
    splitChars os (xs ++ b :: ys) = splitChars os xs ++ splitChars os ys := by
  induction xs with
  | nil => simp [splitChars, hb]
  | cons c cs ih =>
    by_cases hc : isSep os c
    · simp [splitChars, hc, ih]
    · cases h : splitChars os cs with
      | nil => exact absurd h (splitChars_ne_nil os cs)
      | cons l ls =>
        have hl : splitChars os (cs ++ b :: ys) = l :: (ls ++ splitChars os ys) := by
          rw [ih, h, List.cons_append]
        show splitChars os (c :: (cs ++ b :: ys)) = splitChars os (c :: cs) ++ splitChars os ys
        simp only [splitChars, if_neg hc, hl, h]
        rfl

theorem splitChars_no_sep (os : OS) {l : List Char}
    (h : ∀ c ∈ l, isSep os c = false) : splitChars os l = [l] := by
  induction l with
  | nil => rfl
  | cons c cs ih =>
    have hc : isSep os c = false := h c (List.mem_cons_self c cs)
    have ih' := ih (fun x hx => h x (List.mem_cons_of_mem c hx))
    simp [splitChars, hc, ih']

theorem componentsL_append_sep (os : OS) {b : Char} (hb : isSep os b = true)
    (xs ys : List Char) :
    componentsL os (xs ++ b :: ys) = componentsL os xs ++ componentsL os ys := by
  unfold componentsL
  rw [splitChars_append_sep os hb, List.filter_append, List.map_append]

theorem str_empty_iff (p : String) : p = "" ↔ p.data = [] := by
  constructor
  · intro h; rw [h]
  · intro h; cases p; simp_all

theorem components_empty_str (os : OS) : components os "" = [] := rfl

theorem componentsL_nil (os : OS) : componentsL os [] = [] := rfl

theorem isSep_sepChar (os : OS) : isSep os (sepChar os) = true := by
  cases os <;> rfl

theorem components_append_sepChar (os : OS) (p q : String) :
    components os (p ++ String.singleton (sepChar os) ++ q) =
      components os p ++ components os q := by
  unfold components
  have : (p ++ String.singleton (sepChar os) ++ q).data =
      p.data ++ sepChar os :: q.data := by
    simp [String.data_append, String.singleton]
  rw [this, componentsL_append_sep os (isSep_sepChar os)]

theorem hasRoot_append (os : OS) {p : String} (q : String) (hp : p ≠ "") :
    hasRoot os (p ++ q) = hasRoot os p := by
  have hd : p.data ≠ [] := fun h => hp ((str_empty_iff p).mpr h)
  unfold hasRoot
  rw [String.data_append]
  cases h : p.data with
  | nil => exact absurd h hd
  | cons c cs => simp

theorem append_ne_empty_left (p q : String) (hp : p ≠ "") : p ++ q ≠ "" := by
  intro h
  have := (str_empty_iff (p ++ q)).mp h
  rw [String.data_append, List.append_eq_nil] at this
  exact hp ((str_empty_iff p).mpr this.1)

theorem components_pushStr (os : OS) (p : String) {s : String}
    (hs : hasRoot os s = false) :
    components os (pushStr os p s) = components os p ++ components os s := by
  unfold pushStr
  rw [hs]
  simp only [Bool.false_eq_true, if_false]
  by_cases hp : p = ""
  · simp [hp, components_empty_str]
  · rw [if_neg hp]
    by_cases he : endsWithSep os p = true
    · rw [if_pos he]
      unfold endsWithSep at he
      cases hl : p.data.getLast? with
      | none => rw [hl] at he; exact absurd he (by simp)
      | some b =>
        rw [hl] at he
        obtain ⟨q', hq⟩ := List.getLast?_eq_some_iff.mp hl
        unfold components
        rw [String.data_append, hq, List.append_assoc, List.singleton_append,
          componentsL_append_sep os he,
          componentsL_append_sep os he q' []]
        simp [componentsL_nil]
    · rw [if_neg he]
      exact components_append_sepChar os p s

theorem hasRoot_pushStr (os : OS) {p s : String} (hs : hasRoot os s = false)
    (hp : p ≠ "") : hasRoot os (pushStr os p s) = hasRoot os p := by
  unfold pushStr
  rw [hs]
  simp only [Bool.false_eq_true, if_false]
  rw [if_neg hp]
  by_cases he : endsWithSep os p = true
  · rw [if_pos he, hasRoot_append os s hp]
  · rw [if_neg he, hasRoot_append os s (append_ne_empty_left _ _ hp),
      hasRoot_append os _ hp]

theorem pushStr_ne_empty (os : OS) {p : String} (s : String) (hp : p ≠ "") :
    pushStr os p s ≠ "" := by
  unfold pushStr
  by_cases hr : hasRoot os s = true
  · rw [if_pos hr]
    intro h
    rw [h] at hr
    simp [hasRoot] at hr
  · rw [if_neg hr, if_neg hp]
    by_cases he : endsWithSep os p = true
    · rw [if_pos he]; exact append_ne_empty_left _ _ hp
    · rw [if_neg he]
      exact append_ne_empty_left _ _ (append_ne_empty_left _ _ hp)

theorem components_clean (os : OS) {s : String} (h : CleanSeg os s) :
    components os s = [s] ∧ hasRoot os s = false := by
  obtain ⟨h0, -, -, h3⟩ := h
  have hd : s.data ≠ [] := fun hh => h0 ((str_empty_iff s).mpr hh)
  constructor
  · unfold components componentsL
    rw [splitChars_no_sep os h3]
    simp [List.isEmpty_iff, hd]
  · unfold hasRoot
    cases hl : s.data with
    | nil => exact absurd hl hd
    | cons c cs => exact h3 c (by rw [hl]; exact List.mem_cons_self c cs)

theorem push_clean (os : OS) (p : String) {s : String} (h : CleanSeg os s) :
    components os (pushStr os p s) = components os p ++ [s] ∧
    hasRoot os (pushStr os p s) = hasRoot os p ∧
    pushStr os p s ≠ "" := by
  obtain ⟨hc, hr⟩ := components_clean os h
  have hemp : pushStr os "" s = s := by
    unfold pushStr
    rw [hr]
    simp
  refine ⟨?_, ?_, ?_⟩
  · rw [components_pushStr os p hr, hc]
  · by_cases hp : p = ""
    · subst hp
      rw [hemp, hr]
      rfl
    · exact hasRoot_pushStr os hr hp
  · by_cases hp : p = ""
    · subst hp
      rw [hemp]
      exact h.1
    · exact pushStr_ne_empty os s hp

theorem lastComponent_of_append (os : OS) {p : String} {cs : List String} {s : String}
    (h : components os p = cs ++ [s]) : lastComponent os p = some s := by
  unfold lastComponent
  rw [h, List.getLast?_concat]

/- ================= claims ================= -/

/-- C2: for every triple of input strings (c, a, b), the identity
constructed by `BaseDirs::new(c, a, b)` stores `company = lowercase c`,
`app = lowercase a` and `bundle_id = lowercase b`, regardless of the
casing of the inputs. -/
theorem C2_identity_lowercased (c a b : String) :
    (BaseDirs.new c a b).company = lowerAscii c ∧
    (BaseDirs.new c a b).app = lowerAscii a ∧
    (BaseDirs.new c a b).bundle_id = lowerAscii b :=
  ⟨rfl, rfl, rfl⟩

/-- C10: on the Unix-like (non-macOS) family, `bundle_id` has no
influence on any query result: two identities agreeing on company and
app yield identical `settings_dir`, `saves_dir`, `logs_dir`, `temp_dir`
and every `<purpose>_path(name)`, for every environment. -/
theorem C10_bundle_id_has_no_influence_unix (e : Env) (c a b1 b2 name : String) :
    (BaseDirs.new c a b1).settings_dir OS.otherUnix e =
      (BaseDirs.new c a b2).settings_dir OS.otherUnix e ∧
    (BaseDirs.new c a b1).saves_dir OS.otherUnix e =
      (BaseDirs.new c a b2).saves_dir OS.otherUnix e ∧
    (BaseDirs.new c a b1).logs_dir OS.otherUnix e =
      (BaseDirs.new c a b2).logs_dir OS.otherUnix e ∧
    (BaseDirs.new c a b1).temp_dir OS.otherUnix e =
      (BaseDirs.new c a b2).temp_dir OS.otherUnix e ∧
    (BaseDirs.new c a b1).settings_path OS.otherUnix e name =
      (BaseDirs.new c a b2).settings_path OS.otherUnix e name ∧
    (BaseDirs.new c a b1).saves_path OS.otherUnix e name =
      (BaseDirs.new c a b2).saves_path OS.otherUnix e name ∧
    (BaseDirs.new c a b1).logs_path OS.otherUnix e name =
      (BaseDirs.new c a b2).logs_path OS.otherUnix e name :=
  ⟨rfl, rfl, rfl, rfl, rfl, rfl, rfl⟩

/-- C9: every pure path-computation function is total; in particular,
in the environment where every consulted variable is unset, each base
resolver bottoms out at its documented fallback and each purpose
resolver still returns a well-defined path built over that fallback. -/
theorem C9_totality_under_unset_env (c a b name : String) :
    home OS.windows envUnset = "/" ∧
    home OS.macos envUnset = "/" ∧
    home OS.otherUnix envUnset = "/" ∧
    xdg_config_home_base envUnset = "/.config" ∧
    xdg_data_home_base envUnset = "/.local/share" ∧
    xdg_state_home_base envUnset = "/.local/state" ∧
    win_localappdata_base envUnset = "C:\\Users\\Default\\AppData\\Local" ∧
    win_saved_games_base envUnset = "/Saved Games" ∧
    mac_app_support_base envUnset = "/Library/Application Support" ∧
    mac_logs_base envUnset = "/Library/Logs" ∧
    (BaseDirs.new c a b).temp_dir OS.otherUnix envUnset = "/tmp" ∧
    (BaseDirs.new c a b).temp_dir OS.macos envUnset = "/tmp" ∧
    (BaseDirs.new c a b).temp_dir OS.windows envUnset = "C:\\Windows\\Temp" ∧
    (BaseDirs.new c a b).settings_dir OS.otherUnix envUnset =
      app_path OS.otherUnix "/.config" (lowerAscii c) (lowerAscii a) none ∧
    (BaseDirs.new c a b).saves_dir OS.otherUnix envUnset =
      app_path OS.otherUnix "/.local/share" (lowerAscii c) (lowerAscii a) (some "saves") ∧
    (BaseDirs.new c a b).logs_dir OS.otherUnix envUnset =
      app_path OS.otherUnix "/.local/state" (lowerAscii c) (lowerAscii a) (some "logs") ∧
    (BaseDirs.new c a b).settings_dir OS.windows envUnset =
      app_path OS.windows "C:\\Users\\Default\\AppData\\Local"
        (lowerAscii c) (lowerAscii a) (some "settings") ∧
    (BaseDirs.new c a b).saves_dir OS.windows envUnset =
      app_path OS.windows "/Saved Games" (lowerAscii c) (lowerAscii a) none ∧
    (BaseDirs.new c a b).logs_dir OS.windows envUnset =
      app_path OS.windows "C:\\Users\\Default\\AppData\\Local"
        (lowerAscii c) (lowerAscii a) (some "logs") ∧
    (BaseDirs.new c a b).settings_dir OS.macos envUnset =
      bundle_path OS.macos "/Library/Application Support" (lowerAscii b) (some "settings") ∧
    (BaseDirs.new c a b).saves_dir OS.macos envUnset =
      bundle_path OS.macos "/Library/Application Support" (lowerAscii b) (some "saves") ∧
    (BaseDirs.new c a b).logs_dir OS.macos envUnset =
      bundle_path OS.macos "/Library/Logs" (lowerAscii b) none ∧
    (BaseDirs.new c a b).settings_path OS.otherUnix envUnset name =
      pushStr OS.otherUnix
        (app_path OS.otherUnix "/.config" (lowerAscii c) (lowerAscii a) none) name ∧
    (BaseDirs.new c a b).saves_path OS.otherUnix envUnset name =
      pushStr OS.otherUnix
        (app_path OS.otherUnix "/.local/share" (lowerAscii c) (lowerAscii a) (some "saves"))
        name ∧
    (BaseDirs.new c a b).logs_path OS.otherUnix envUnset name =
      pushStr OS.otherUnix
        (app_path OS.otherUnix "/.local/state" (lowerAscii c) (lowerAscii a) (some "logs"))
        name :=
  ⟨rfl, rfl, rfl, rfl, rfl, rfl, rfl, rfl, rfl, rfl, rfl, rfl, rfl,
   rfl, rfl, rfl, rfl, rfl, rfl, rfl, rfl, rfl, rfl, rfl, rfl⟩

/-- C5 counterexample: with `HOME` set to the empty string, `home()`
on the Unix-like family returns the empty path, so the claim's
"for every environment, home() returns a non-empty path" fails. -/
theorem C5_counterexample_empty_home :
    home OS.otherUnix { home_var := some "" } = "" := rfl

/-- C5 (amended): `home()` follows the documented chain — on Windows
`USERPROFILE` if set, else `HOME`; elsewhere `HOME`; the filesystem
root when the consulted variables are unset — and it is non-empty
whenever every set consulted variable is non-empty. -/
theorem C5_home_resolution (e : Env) :
    (∀ v, e.userprofile = some v → home OS.windows e = v) ∧
    (e.userprofile = none → ∀ v, e.home_var = some v → home OS.windows e = v) ∧
    (e.userprofile = none → e.home_var = none → home OS.windows e = "/") ∧
    (∀ os, os ≠ OS.windows → ∀ v, e.home_var = some v → home os e = v) ∧
    (∀ os, os ≠ OS.windows → e.home_var = none → home os e = "/") ∧
    (e.userprofile ≠ some "" → e.home_var ≠ some "" → ∀ os, home os e ≠ "") := by
  refine ⟨?_, ?_, ?_, ?_, ?_, ?_⟩
  · intro v hv
    unfold home
    rw [if_pos rfl, hv]
    rfl
  · intro hu v hv
    unfold home
    rw [if_pos rfl, hu, hv]
    rfl
  · intro hu hv
    unfold home
    rw [if_pos rfl, hu, hv]
    rfl
  · intro os hos v hv
    unfold home
    rw [if_neg hos, hv]
    rfl
  · intro os hos hv
    unfold home
    rw [if_neg hos, hv]
    rfl
  · intro hu hh os
    unfold home
    by_cases hos : os = OS.windows
    · rw [if_pos hos]
      cases hup : e.userprofile with
      | some u =>
        intro h
        simp only [Option.getD_some] at h
        exact hu (by rw [hup, h])
      | none =>
        cases hhv : e.home_var with
        | some v =>
          intro h
          simp only [Option.getD_some] at h
          exact hh (by rw [hhv, h])
        | none => simp
    · rw [if_neg hos]
      cases hhv : e.home_var with
      | some v =>
        intro h
        simp only [Option.getD_some] at h
        exact hh (by rw [hhv, h])
      | none => simp

/-- C5 witness: the amended resolution chain evaluated at a concrete
Windows-family environment. -/
theorem C5_home_resolution_witness :
    home OS.windows { userprofile := some "C:\\Users\\me", home_var := none } =
      "C:\\Users\\me" :=
  (C5_home_resolution { userprofile := some "C:\\Users\\me", home_var := none }).1
    "C:\\Users\\me" rfl

theorem app_path_template (os : OS) {base c a : String}
    (hb : base ≠ "") (hc : hasRoot os c = false) (ha : hasRoot os a = false) :
    pathEq os (app_path os base c a none)
      (base ++ String.singleton (sepChar os) ++ c ++ String.singleton (sepChar os) ++ a) := by
  have hne1 : pushStr os base c ≠ "" := pushStr_ne_empty os c hb
  have hbs : base ++ String.singleton (sepChar os) ≠ "" :=
    append_ne_empty_left _ _ hb
  have hbsc : base ++ String.singleton (sepChar os) ++ c ≠ "" :=
    append_ne_empty_left _ _ hbs
  have hbscs : base ++ String.singleton (sepChar os) ++ c ++ String.singleton (sepChar os) ≠ "" :=
    append_ne_empty_left _ _ hbsc
  constructor
  · show hasRoot os (pushStr os (pushStr os base c) a) = _
    rw [hasRoot_pushStr os ha hne1, hasRoot_pushStr os hc hb,
      hasRoot_append os _ hbscs, hasRoot_append os _ hbsc,
      hasRoot_append os _ hbs, hasRoot_append os _ hb]
  · show components os (pushStr os (pushStr os base c) a) = _
    rw [components_pushStr os _ ha, components_pushStr os _ hc,
      components_append_sepChar os (base ++ String.singleton (sepChar os) ++ c) a,
      components_append_sepChar os base c]

/-- C1 counterexample: the claim quantifies over every identity, but an
identity whose company lowercases to an absolute path makes
`PathBuf::push` replace the base, so with `XDG_CONFIG_HOME=/custom` the
result is `/evil/app`, not `/custom//evil/app`. -/
theorem C1_counterexample_absolute_company :
    (BaseDirs.new "/EVIL" "App" "b").settings_dir OS.otherUnix envCustom = "/evil/app" ∧
    ¬ pathEq OS.otherUnix
        ((BaseDirs.new "/EVIL" "App" "b").settings_dir OS.otherUnix envCustom)
        ("/custom" ++ "/" ++ lowerAscii "/EVIL" ++ "/" ++ lowerAscii "App") := by
  refine ⟨rfl, ?_⟩
  decide

/-- C1 (amended): on the Unix-like family, for every identity whose
lowercased company and app do not start with a separator,
`settings_dir()` follows the `XDG_CONFIG_HOME` fallback chain: with
`XDG_CONFIG_HOME=/custom` the result is the path
`/custom/<company>/<app>`, and with `XDG_CONFIG_HOME` unset (and a
non-empty resolved home) it is `home()/.config/<company>/<app>`. -/
theorem C1_settings_xdg_chain (c a b : String) (e : Env)
    (hc : hasRoot OS.otherUnix (lowerAscii c) = false)
    (ha : hasRoot OS.otherUnix (lowerAscii a) = false) :
    (e.xdg_config_home = some "/custom" →
      pathEq OS.otherUnix ((BaseDirs.new c a b).settings_dir OS.otherUnix e)
        ("/custom" ++ "/" ++ lowerAscii c ++ "/" ++ lowerAscii a)) ∧
    (e.xdg_config_home = none → home OS.otherUnix e ≠ "" →
      pathEq OS.otherUnix ((BaseDirs.new c a b).settings_dir OS.otherUnix e)
        (home OS.otherUnix e ++ "/" ++ ".config" ++ "/" ++ lowerAscii c ++ "/" ++
          lowerAscii a)) := by
  constructor
  · intro hx
    have hbase : xdg_config_home_base e = "/custom" := by
      unfold xdg_config_home_base
      rw [hx]
    show pathEq OS.otherUnix
      (app_path OS.otherUnix (xdg_config_home_base e) (lowerAscii c) (lowerAscii a) none) _
    rw [hbase]
    exact app_path_template OS.otherUnix (by decide) hc ha
  · intro hx hh
    have hcfg : CleanSeg OS.otherUnix ".config" := by decide
    have hbase : xdg_config_home_base e = pushStr OS.otherUnix (home OS.otherUnix e) ".config" := by
      unfold xdg_config_home_base
      rw [hx]
    obtain ⟨hb1, hb2, hb3⟩ := push_clean OS.otherUnix (home OS.otherUnix e) hcfg
    obtain ⟨hcc, hcr⟩ := components_clean OS.otherUnix hcfg
    have hs1 : home OS.otherUnix e ++ "/" ≠ "" := append_ne_empty_left _ _ hh
    have hs2 : home OS.otherUnix e ++ "/" ++ ".config" ≠ "" := append_ne_empty_left _ _ hs1
    have hs3 : home OS.otherUnix e ++ "/" ++ ".config" ++ "/" ≠ "" :=
      append_ne_empty_left _ _ hs2
    have hs4 : home OS.otherUnix e ++ "/" ++ ".config" ++ "/" ++ lowerAscii c ≠ "" :=
      append_ne_empty_left _ _ hs3
    have hs5 : home OS.otherUnix e ++ "/" ++ ".config" ++ "/" ++ lowerAscii c ++ "/" ≠ "" :=
      append_ne_empty_left _ _ hs4
    show pathEq OS.otherUnix
      (app_path OS.otherUnix (xdg_config_home_base e) (lowerAscii c) (lowerAscii a) none) _
    rw [hbase]
    constructor
    · show hasRoot OS.otherUnix
        (pushStr OS.otherUnix
          (pushStr OS.otherUnix (pushStr OS.otherUnix (home OS.otherUnix e) ".config")
            (lowerAscii c)) (lowerAscii a)) = _
      rw [hasRoot_pushStr OS.otherUnix ha (pushStr_ne_empty OS.otherUnix _ hb3),
        hasRoot_pushStr OS.otherUnix hc hb3, hb2,
        hasRoot_append OS.otherUnix _ hs5, hasRoot_append OS.otherUnix _ hs4,
        hasRoot_append OS.otherUnix _ hs3, hasRoot_append OS.otherUnix _ hs2,
        hasRoot_append OS.otherUnix _ hs1, hasRoot_append OS.otherUnix _ hh]
    · show components OS.otherUnix
        (pushStr OS.otherUnix
          (pushStr OS.otherUnix (pushStr OS.otherUnix (home OS.otherUnix e) ".config")
            (lowerAscii c)) (lowerAscii a)) = _
      rw [components_pushStr OS.otherUnix _ ha, components_pushStr OS.otherUnix _ hc, hb1]
      have e1 : components OS.otherUnix
          (home OS.otherUnix e ++ "/" ++ ".config" ++ "/" ++ lowerAscii c ++ "/" ++
            lowerAscii a) =
          components OS.otherUnix
            (home OS.otherUnix e ++ "/" ++ ".config" ++ "/" ++ lowerAscii c) ++
          components OS.otherUnix (lowerAscii a) :=
        components_append_sepChar OS.otherUnix _ _
      have e2 : components OS.otherUnix
          (home OS.otherUnix e ++ "/" ++ ".config" ++ "/" ++ lowerAscii c) =
          components OS.otherUnix (home OS.otherUnix e ++ "/" ++ ".config") ++
          components OS.otherUnix (lowerAscii c) :=
        components_append_sepChar OS.otherUnix _ _
      have e3 : components OS.otherUnix (home OS.otherUnix e ++ "/" ++ ".config") =
          components OS.otherUnix (home OS.otherUnix e) ++ components OS.otherUnix ".config" :=
        components_append_sepChar OS.otherUnix _ _
      rw [e1, e2, e3, hcc]

/-- C1 witness: the amended chain at a concrete identity, in both the
set and the unset `XDG_CONFIG_HOME` environments. -/
theorem C1_settings_xdg_chain_witness :
    pathEq OS.otherUnix ((BaseDirs.new "MyCo" "CoolApp" "net.myco.coolapp").settings_dir
        OS.otherUnix envCustom)
      ("/custom" ++ "/" ++ lowerAscii "MyCo" ++ "/" ++ lowerAscii "CoolApp") ∧
    pathEq OS.otherUnix ((BaseDirs.new "MyCo" "CoolApp" "net.myco.coolapp").settings_dir
        OS.otherUnix envUnset)
      (home OS.otherUnix envUnset ++ "/" ++ ".config" ++ "/" ++ lowerAscii "MyCo" ++ "/" ++
        lowerAscii "CoolApp") :=
  ⟨(C1_settings_xdg_chain "MyCo" "CoolApp" "net.myco.coolapp" envCustom
      (by decide) (by decide)).1 rfl,
   (C1_settings_xdg_chain "MyCo" "CoolApp" "net.myco.coolapp" envUnset
      (by decide) (by decide)).2 rfl (by decide)⟩

/-- C6 counterexample: an identity whose app is itself named "logs"
makes the Unix-like `settings_dir()` end in a purpose-suffix segment,
contradicting the claim's "never". -/
theorem C6_counterexample_app_named_logs :
    lastComponent OS.otherUnix
      ((BaseDirs.new "c" "logs" "b").settings_dir OS.otherUnix envCustom) = some "logs" :=
  rfl

/-- C6 (amended): on the Unix-like family, `saves_dir()` always ends in
the segment "saves" and `logs_dir()` always ends in "logs"; and
`settings_dir()` ends in the app segment, hence not in a purpose-suffix
segment whenever the lowercased app is an ordinary segment distinct
from the three suffix names. -/
theorem C6_unix_purpose_suffixes (c a b : String) (e : Env) :
    lastComponent OS.otherUnix ((BaseDirs.new c a b).saves_dir OS.otherUnix e) =
      some "saves" ∧
    lastComponent OS.otherUnix ((BaseDirs.new c a b).logs_dir OS.otherUnix e) =
      some "logs" ∧
    (CleanSeg OS.otherUnix (lowerAscii a) →
      lastComponent OS.otherUnix ((BaseDirs.new c a b).settings_dir OS.otherUnix e) =
        some (lowerAscii a) ∧
      (lowerAscii a ∉ (["settings", "saves", "logs"] : List String) →
        ∀ s ∈ (["settings", "saves", "logs"] : List String),
          lastComponent OS.otherUnix ((BaseDirs.new c a b).settings_dir OS.otherUnix e) ≠
            some s)) := by
  refine ⟨?_, ?_, fun ha => ?_⟩
  · exact lastComponent_of_append OS.otherUnix
      (push_clean OS.otherUnix
        (pushStr OS.otherUnix (pushStr OS.otherUnix (xdg_data_home_base e) (lowerAscii c))
          (lowerAscii a)) (by decide : CleanSeg OS.otherUnix "saves")).1
  · exact lastComponent_of_append OS.otherUnix
      (push_clean OS.otherUnix
        (pushStr OS.otherUnix (pushStr OS.otherUnix (xdg_state_home_base e) (lowerAscii c))
          (lowerAscii a)) (by decide : CleanSeg OS.otherUnix "logs")).1
  · have h1 : lastComponent OS.otherUnix
        ((BaseDirs.new c a b).settings_dir OS.otherUnix e) = some (lowerAscii a) :=
      lastComponent_of_append OS.otherUnix
        (push_clean OS.otherUnix
          (pushStr OS.otherUnix (xdg_config_home_base e) (lowerAscii c)) ha).1
    refine ⟨h1, fun hna s hs heq => ?_⟩
    rw [h1] at heq
    exact hna (by rw [Option.some.injEq] at heq; rw [heq]; exact hs)

/-- C6 witness: the amended suffix behaviour at a concrete identity and
environment. -/
theorem C6_unix_purpose_suffixes_witness :
    lastComponent OS.otherUnix
        ((BaseDirs.new "MyCo" "CoolApp" "x").saves_dir OS.otherUnix envCustom) =
      some "saves" ∧
    lastComponent OS.otherUnix
        ((BaseDirs.new "MyCo" "CoolApp" "x").settings_dir OS.otherUnix envCustom) =
      some (lowerAscii "CoolApp") :=
  ⟨(C6_unix_purpose_suffixes "MyCo" "CoolApp" "x" envCustom).1,
   ((C6_unix_purpose_suffixes "MyCo" "CoolApp" "x" envCustom).2.2 (by decide)).1⟩

theorem mem_prefixesNE_self {cs : List String} (h : cs ≠ []) : cs ∈ prefixesNE cs := by
  unfold prefixesNE
  have hlen : 0 < cs.length := List.length_pos.mpr h
  refine List.mem_map.mpr ⟨cs.length - 1, List.mem_range.mpr (by omega), ?_⟩
  rw [Nat.sub_add_cancel hlen, List.take_length]

theorem create_dir_all_mem (os : OS) (fs : Fs) (p : String) :
    ∀ cs ∈ prefixesNE (components os p),
      (hasRoot os p, cs) ∈ create_dir_all os fs p := by
  intro cs hcs
  unfold create_dir_all
  by_cases hp : p = ""
  · subst hp
    rw [components_empty_str os] at hcs
    simp [prefixesNE] at hcs
  · rw [if_neg hp]
    exact List.mem_append_right _ (List.mem_map.mpr ⟨cs, hcs, rfl⟩)

theorem dirExists_create_dir_all (os : OS) (fs : Fs) (p : String) :
    dirExists os (create_dir_all os fs p) p = true := by
  unfold dirExists
  by_cases hc : components os p = []
  · simp [hc]
  · have := create_dir_all_mem os fs p (components os p) (mem_prefixesNE_self hc)
    simp [this]

/-- C7: `ensure_settings_dir()` called twice in succession (idealized
filesystem, no I/O faults) succeeds both times, returns exactly
`settings_dir()` both times, and the directory exists afterwards. -/
theorem C7_ensure_settings_dir_twice (os : OS) (e : Env) (c a b : String) (fs : Fs) :
    ((BaseDirs.new c a b).ensure_settings_dir os e fs).1 =
      Except.ok ((BaseDirs.new c a b).settings_dir os e) ∧
    ((BaseDirs.new c a b).ensure_settings_dir os e
        ((BaseDirs.new c a b).ensure_settings_dir os e fs).2).1 =
      Except.ok ((BaseDirs.new c a b).settings_dir os e) ∧
    dirExists os
      ((BaseDirs.new c a b).ensure_settings_dir os e
        ((BaseDirs.new c a b).ensure_settings_dir os e fs).2).2
      ((BaseDirs.new c a b).settings_dir os e) = true :=
  ⟨rfl, rfl,
   dirExists_create_dir_all os
     (create_dir_all os fs ((BaseDirs.new c a b).settings_dir os e))
     ((BaseDirs.new c a b).settings_dir os e)⟩

/-- C8: `ensure_parent_dir(path)` always succeeds; when the path has no
parent component it performs no filesystem operation, and when the
parent is `some pp` every ancestor of `pp` exists afterwards. -/
theorem C8_ensure_parent_dir_ancestors (os : OS) (bd : BaseDirs) (fs : Fs) (path : String) :
    (bd.ensure_parent_dir os fs path).1 = Except.ok () ∧
    (parentStr os path = none → (bd.ensure_parent_dir os fs path).2 = fs) ∧
    (∀ pp, parentStr os path = some pp →
      dirExists os (bd.ensure_parent_dir os fs path).2 pp = true ∧
      ∀ cs ∈ prefixesNE (components os pp),
        (hasRoot os pp, cs) ∈ (bd.ensure_parent_dir os fs path).2) := by
  cases hp : parentStr os path with
  | none =>
    refine ⟨?_, fun _ => ?_, fun pp hpp => ?_⟩
    · unfold BaseDirs.ensure_parent_dir
      rw [hp]
    · unfold BaseDirs.ensure_parent_dir
      rw [hp]
    · cases hpp
  | some p =>
    have h2 : (bd.ensure_parent_dir os fs path).2 = create_dir_all os fs p := by
      unfold BaseDirs.ensure_parent_dir
      rw [hp]
    refine ⟨?_, fun hn => ?_, fun pp hpp => ?_⟩
    · unfold BaseDirs.ensure_parent_dir
      rw [hp]
    · cases hn
    · cases hpp
      rw [h2]
      exact ⟨dirExists_create_dir_all os fs p, create_dir_all_mem os fs p⟩

/-- C8 witness: for the file path `/tmp/x/y/z.txt` the call succeeds
and the parent directory `/tmp/x/y` exists afterwards. -/
theorem C8_ensure_parent_dir_witness :
    ((BaseDirs.new "a" "b" "c").ensure_parent_dir OS.otherUnix [] "/tmp/x/y/z.txt").1 =
      Except.ok () ∧
    dirExists OS.otherUnix
      ((BaseDirs.new "a" "b" "c").ensure_parent_dir OS.otherUnix [] "/tmp/x/y/z.txt").2
      "/tmp/x/y" = true :=
  ⟨(C8_ensure_parent_dir_ancestors OS.otherUnix (BaseDirs.new "a" "b" "c") []
      "/tmp/x/y/z.txt").1,
   ((C8_ensure_parent_dir_ancestors OS.otherUnix (BaseDirs.new "a" "b" "c") []
      "/tmp/x/y/z.txt").2.2 "/tmp/x/y" (by decide)).1⟩
